import Mathlib

/-!
Verification of the reactive briefing app in src/app.py: the reveal-toggle
state machine and commodity chart data (app.py section 7, lines 394-493),
the Top-20 incident aggregation pipeline (lines 500-591), and the
cycle-diagram layout (section 9, lines 702-756).

Tables are embedded as Lists of records; the pandas sorts are modelled by
`List.insertionSort` (a stable comparison sort; the observable facts proved
below — sortedness, permutation, lengths, membership — do not depend on the
tie order beyond stability, and on the concrete inputs used here the results
agree with pandas).  Monetary values, written with one decimal digit in the
source (8.7, 9.4, ...), are recorded exactly as integer tenths of a billion
(87, 94, ...), an order-preserving and lossless encoding that keeps the
table inside ℕ.  String order is code-point lexicographic order on the
character list, which is exactly how pandas compares location strings.
-/

open List

/-- Code-point lexicographic order on strings, the order pandas uses for
string group keys. -/
def keyLe (a b : String) : Prop := a.data ≤ b.data

instance : DecidableRel keyLe :=
  fun a b => inferInstanceAs (Decidable (a.data ≤ b.data))

instance : IsTotal String keyLe := ⟨fun a b => le_total a.data b.data⟩

instance : IsTrans String keyLe := ⟨fun _ _ _ h h2 => le_trans h h2⟩

/-- One row of the commodities table: the `import_data` entries of app.py
lines 398-409 carry a Commodity name, a Value (here in tenths of a billion)
and a Type tag. -/
structure Commodity where
  commodity : String
  value : Nat
  kind : String
deriving DecidableEq

/-- The ten base legal commodities (app.py lines 398-409); values 8.7, 6.4,
5.3, 4.2, 4.1, 2.0, 1.6, 1.5, 1.3, 1.3 billion recorded as tenths. -/
def importData : List Commodity :=
  [⟨"Mineral Fuels", 87, "Legal"⟩,
   ⟨"Mechanical Appliances", 64, "Legal"⟩,
   ⟨"Electronic Equipment", 53, "Legal"⟩,
   ⟨"Precious Metals", 42, "Legal"⟩,
   ⟨"Motor Vehicles", 41, "Legal"⟩,
   ⟨"Pharmaceuticals", 20, "Legal"⟩,
   ⟨"Other Products", 16, "Legal"⟩,
   ⟨"Plastics", 15, "Legal"⟩,
   ⟨"Measuring Devices", 13, "Legal"⟩,
   ⟨"Knitwear", 13, "Legal"⟩]

/-- The synthetic illegal row appended while the reveal flag is set
(app.py line 416); value 9.4 billion recorded as 94 tenths. -/
def newRow : Commodity := ⟨"Illicit Drugs", 94, "Illegal"⟩

/-- The commodity table after the reveal branch (app.py lines 413-417):
`pd.concat` builds a fresh frame holding the base rows plus the synthetic
row; the base list itself is never modified. -/
def dfImports (reveal : Bool) : List Commodity :=
  importData ++ (if reveal then [newRow] else [])

/-- Larger-or-equal value comes first: the order realised by
`sort_values("Value", ascending=False)` on app.py line 420. -/
def valueGE (a b : Commodity) : Prop := b.value ≤ a.value

instance : DecidableRel valueGE :=
  fun a b => inferInstanceAs (Decidable (b.value ≤ a.value))

instance : IsTotal Commodity valueGE := ⟨fun a b => Nat.le_total b.value a.value⟩

instance : IsTrans Commodity valueGE := ⟨fun _ _ _ hab hbc => le_trans hbc hab⟩

/-- The visible commodity sequence handed to the bar chart: the (possibly
extended) table sorted by value descending (app.py line 420). -/
def visibleImports (reveal : Bool) : List Commodity :=
  insertionSort valueGE (dfImports reveal)

/-- A user action on the reveal toggle: the two buttons rendered by
app.py lines 486-493. -/
inductive ToggleAction where
  | reveal
  | reset
deriving DecidableEq

/-- One interaction step on `st.session_state['reveal_drug_market']`.
The reveal button is rendered only while the flag is `False` and the reset
button only while it is `True` (app.py lines 486-493), so an action whose
button is not on screen cannot fire and leaves the state unchanged. -/
def stepToggle (s : Bool) : ToggleAction → Bool
  | .reveal => if s then s else true
  | .reset => if s then false else s

/-- The session flag reached from the initial `False`
(app.py lines 394-395) by a sequence of user actions. -/
def runToggle (acts : List ToggleAction) : Bool :=
  acts.foldl stepToggle false

/-- One row of `data.csv` as consumed by the incident chart
(columns Location, Category, Count). -/
structure IncidentRecord where
  location : String
  category : String
  count : Nat
deriving DecidableEq

/-- Sum of the Count column, `df["Count"].sum()`. -/
def sumCounts (t : List IncidentRecord) : Nat := (t.map (·.count)).sum

/-- The group keys of `df_incidents.groupby("Location")`: the distinct
locations in ascending lexicographic order (pandas sorts group keys). -/
def groupKeys (t : List IncidentRecord) : List String :=
  insertionSort keyLe (t.map (·.location)).dedup

/-- `groupby("Location")["Count"].sum()` (app.py line 505): one
`(location, total)` pair per distinct location, the total summing every
count recorded for that location. -/
def groupedTotals (t : List IncidentRecord) : List (String × Nat) :=
  (groupKeys t).map fun l => (l, sumCounts (t.filter fun r => r.location == l))

/-- Ascending order on the summed totals, the comparison used by
`sort_values(ascending=True)` on app.py line 505. -/
def leTotal (a b : String × Nat) : Prop := a.2 ≤ b.2

instance : DecidableRel leTotal :=
  fun a b => inferInstanceAs (Decidable (a.2 ≤ b.2))

instance : IsTotal (String × Nat) leTotal := ⟨fun a b => Nat.le_total a.2 b.2⟩

instance : IsTrans (String × Nat) leTotal := ⟨fun _ _ _ hab hbc => le_trans hab hbc⟩

/-- `location_totals` of app.py line 505: the per-location totals sorted
ascending by total.  The source's `sort_values` default quicksort does not
guarantee any particular order within a group of equal totals, so the
stable sort here fixes one concrete tie order that the program promises
only on tables small enough for numpy's stable insertion-sort runs; the
theorems below rely on the tie order only on such concrete small tables. -/
def locationTotals (t : List IncidentRecord) : List (String × Nat) :=
  insertionSort leTotal (groupedTotals t)

/-- `top_locations` of app.py line 508: `.tail(20)` keeps the last 20 rows
of the ascending series — the 20 largest totals — and `.index.tolist()`
extracts their location names. -/
def topLocations (t : List IncidentRecord) : List String :=
  ((locationTotals t).drop ((locationTotals t).length - 20)).map (·.1)

/-- `df_filtered` of app.py line 511: the raw records whose location is in
the selected set (`.isin(top_locations)`). -/
def dfFiltered (t : List IncidentRecord) : List IncidentRecord :=
  t.filter fun r => decide (r.location ∈ topLocations t)

/-- Outcome of the incident panel: either the chart inputs (the filtered
records and the title total) or the no-data notice. -/
inductive IncidentsView where
  | hasData (filtered : List IncidentRecord) (titleTotal : Nat)
  | noData
deriving DecidableEq

/-- The incident-chart branch of app.py lines 502-591: an empty table
renders the "No data available." warning; otherwise the chart is built from
`df_filtered` while the title total of line 534 sums the Count column of
the whole raw table. -/
def renderIncidents (t : List IncidentRecord) : IncidentsView :=
  if t.isEmpty then .noData else .hasData (dfFiltered t) (sumCounts t)

/-- Refinement comparison only — this definition follows the words of the
spec, not the source: distinct locations in first-appearance (input) order
instead of pandas' sorted group keys. -/
def firstSeenKeys (t : List IncidentRecord) : List String :=
  t.foldl (fun acc r => if r.location ∈ acc then acc else acc ++ [r.location]) []

/-- Refinement comparison only — per-location totals listed in input order,
so that the subsequent stable sort breaks ties by input order, the rule
stated by the spec for `TopNSelection`. -/
def groupedTotalsSpec (t : List IncidentRecord) : List (String × Nat) :=
  (firstSeenKeys t).map fun l => (l, sumCounts (t.filter fun r => r.location == l))

/-- Refinement comparison only — the Top-N selection the spec describes:
stable ascending sort over input-ordered totals, last 20 kept. -/
def topLocationsSpec (t : List IncidentRecord) : List String :=
  (((insertionSort leTotal (groupedTotalsSpec t))).drop
    ((insertionSort leTotal (groupedTotalsSpec t)).length - 20)).map (·.1)

/-- A two-record table whose two locations tie on total count, the input
order putting "B" first.  With only two tied elements the sort takes
numpy's stable insertion-sort path, so the embedded stable sort reproduces
the program's behaviour on this table exactly. -/
def tieTable : List IncidentRecord :=
  [⟨"B", "Noise", 5⟩, ⟨"A", "Noise", 5⟩]

/-- Scenario A of the spec's testable properties: two locations, one with
two category rows. -/
def scenarioA : List IncidentRecord :=
  [⟨"X", "Noise", 5⟩, ⟨"X", "Youths", 3⟩, ⟨"Y", "Noise", 10⟩]

/-- A 21-location table (distinct locations, counts 1..21): one more
location than the Top-20 cut keeps. -/
def bigTable : List IncidentRecord :=
  [⟨"A", "Noise", 1⟩, ⟨"B", "Noise", 2⟩, ⟨"C", "Noise", 3⟩,
   ⟨"D", "Noise", 4⟩, ⟨"E", "Noise", 5⟩, ⟨"F", "Noise", 6⟩,
   ⟨"G", "Noise", 7⟩, ⟨"H", "Noise", 8⟩, ⟨"I", "Noise", 9⟩,
   ⟨"J", "Noise", 10⟩, ⟨"K", "Noise", 11⟩, ⟨"L", "Noise", 12⟩,
   ⟨"M", "Noise", 13⟩, ⟨"N", "Noise", 14⟩, ⟨"O", "Noise", 15⟩,
   ⟨"P", "Noise", 16⟩, ⟨"Q", "Noise", 17⟩, ⟨"R", "Noise", 18⟩,
   ⟨"S", "Noise", 19⟩, ⟨"T", "Noise", 20⟩, ⟨"U", "Noise", 21⟩]

/-- Modelled from the spec: the Circular Layout Generator of section 4.4 has
no realisation in src/app.py — the cycle diagram of lines 702-756 delegates
node placement to graphviz — so the algorithm is taken from the spec's
words: node `i` sits at `startAngle - i·(360/count)` degrees. -/
noncomputable def layoutAngle (startAngle : ℝ) (count : ℕ) (i : ℕ) : ℝ :=
  startAngle - i * (360 / count)

/-- Modelled from the spec: position = (radius·cos angle, radius·sin angle)
around a fixed center, the angle converted from degrees to radians. -/
noncomputable def nodePos (radius startAngle : ℝ) (count i : ℕ) : ℝ × ℝ :=
  (radius * Real.cos (layoutAngle startAngle count i * Real.pi / 180),
   radius * Real.sin (layoutAngle startAngle count i * Real.pi / 180))

/-- Euclidean distance of a point from the center of the layout. -/
noncomputable def distToCenter (p : ℝ × ℝ) : ℝ :=
  Real.sqrt (p.1 ^ 2 + p.2 ^ 2)

/-! ## Helper lemmas -/

lemma sumCounts_filter_add (p : IncidentRecord → Bool) (t : List IncidentRecord) :
    sumCounts (t.filter p) + sumCounts (t.filter fun r => !(p r)) = sumCounts t := by
  induction t with
  | nil => rfl
  | cons r t ih =>
    cases hp : p r <;> simp [filter_cons, hp, sumCounts] at ih ⊢ <;> omega

lemma sumCounts_over_keys (ks : List String) :
    ∀ t : List IncidentRecord, ks.Nodup → (∀ r ∈ t, r.location ∈ ks) →
      (ks.map fun l => sumCounts (t.filter fun r => r.location == l)).sum = sumCounts t := by
  induction ks with
  | nil =>
    intro t _ hcov
    have ht : t = [] :=
      eq_nil_iff_forall_not_mem.mpr fun r hr => (not_mem_nil _) (hcov r hr)
    subst ht; rfl
  | cons k ks ih =>
    intro t hnd hcov
    have hk : k ∉ ks := (nodup_cons.mp hnd).1
    have hnd2 : ks.Nodup := (nodup_cons.mp hnd).2
    have hmap : ∀ l ∈ ks,
        sumCounts (t.filter fun r => r.location == l) =
        sumCounts ((t.filter fun r => !(r.location == k)).filter
          fun r => r.location == l) := by
      intro l hl
      have hlk : l ≠ k := fun e => hk (e ▸ hl)
      rw [filter_filter]
      congr 1
      apply filter_congr
      intro r _
      by_cases h : r.location = l
      · simp [h, hlk]
      · simp [h]
    have hcov2 : ∀ r ∈ t.filter (fun r => !(r.location == k)), r.location ∈ ks := by
      intro r hr
      have h1 := (mem_filter.mp hr).1
      have h3 : r.location ≠ k := by simpa using (mem_filter.mp hr).2
      rcases mem_cons.mp (hcov r h1) with h4 | h4
      · exact absurd h4 h3
      · exact h4
    rw [map_cons, sum_cons, map_congr_left hmap,
      ih (t.filter fun r => !(r.location == k)) hnd2 hcov2]
    exact sumCounts_filter_add (fun r => r.location == k) t

/-! ## Claim theorems -/

/-- Claim C1: in every session state reachable from the initial hidden flag,
the synthetic Illicit Drugs entry is in the visible commodity sequence iff
the reveal flag is true, it occurs at most once (exactly once when
revealed), and the visible sequence is always a rearrangement of the
untouched base sequence plus, at most, the synthetic row — the base
sequence is never mutated. -/
theorem revealToggleInvariant (acts : List ToggleAction) :
    (newRow ∈ visibleImports (runToggle acts) ↔ runToggle acts = true) ∧
    (visibleImports (runToggle acts)).count newRow =
      (if runToggle acts then 1 else 0) ∧
    visibleImports (runToggle acts) ~
      importData ++ (if runToggle acts then [newRow] else []) := by
  cases h : runToggle acts <;> decide

/-- Claim C2: for a non-empty incident table the pipeline groups by
location and sums counts, covers every record's location, sorts ascending
by total, keeps the last `min 20 n` entries (all of them when fewer than 20
distinct locations exist), every discarded total is at most every kept
total, and the records handed to the chart are exactly those whose location
is in the selected set. -/
theorem topNPipeline (t : List IncidentRecord) (_h : t ≠ []) :
    (∀ p ∈ locationTotals t,
        p.2 = sumCounts (t.filter fun r => r.location == p.1)) ∧
    (∀ r ∈ t, r.location ∈ (locationTotals t).map (·.1)) ∧
    Sorted leTotal (locationTotals t) ∧
    (topLocations t).length = min 20 (locationTotals t).length ∧
    ((locationTotals t).length ≤ 20 →
      topLocations t = (locationTotals t).map (·.1)) ∧
    (∀ p ∈ (locationTotals t).take ((locationTotals t).length - 20),
      ∀ q ∈ (locationTotals t).drop ((locationTotals t).length - 20),
        p.2 ≤ q.2) ∧
    (∀ r : IncidentRecord,
        r ∈ dfFiltered t ↔ r ∈ t ∧ r.location ∈ topLocations t) := by
  refine ⟨?_, ?_, ?_, ?_, ?_, ?_, ?_⟩
  · intro p hp
    have h1 : p ∈ groupedTotals t := (mem_insertionSort leTotal).mp hp
    rcases mem_map.mp h1 with ⟨l, _, he⟩
    subst he
    rfl
  · intro r hr
    have h1 : r.location ∈ groupKeys t :=
      (mem_insertionSort keyLe).mpr (mem_dedup.mpr (mem_map_of_mem (·.location) hr))
    have h2 : (r.location, sumCounts (t.filter fun x => x.location == r.location)) ∈
        groupedTotals t := mem_map_of_mem _ h1
    exact mem_map_of_mem (·.1) ((mem_insertionSort leTotal).mpr h2)
  · exact sorted_insertionSort leTotal (groupedTotals t)
  · rw [topLocations, length_map, length_drop]
    omega
  · intro hle
    rw [topLocations, Nat.sub_eq_zero_of_le hle, drop_zero]
  · intro p hp q hq
    exact (sorted_insertionSort leTotal (groupedTotals t)).rel_of_mem_take_of_mem_drop
      hp hq
  · intro r
    simp [dfFiltered, mem_filter]

/-- Witness for C2 at the spec's scenario A table. -/
theorem topNPipeline_scenarioA :
    scenarioA ≠ [] ∧ Sorted leTotal (locationTotals scenarioA) :=
  ⟨by decide, (topNPipeline scenarioA (by decide)).2.2.1⟩

/-- Claim C3: the per-location totals sum to the sum of the raw counts; no
record is dropped or double-counted by the aggregation. -/
theorem aggregationPreservesSum (t : List IncidentRecord) :
    ((locationTotals t).map (·.2)).sum = sumCounts t := by
  have hperm : ((locationTotals t).map (·.2)).sum =
      ((groupedTotals t).map (·.2)).sum :=
    ((perm_insertionSort leTotal (groupedTotals t)).map (·.2)).sum_eq
  have hnd : (groupKeys t).Nodup :=
    (perm_insertionSort keyLe _).symm.nodup (nodup_dedup _)
  have hcov : ∀ r ∈ t, r.location ∈ groupKeys t := fun r hr =>
    (mem_insertionSort keyLe).mpr (mem_dedup.mpr (mem_map_of_mem (·.location) hr))
  rw [hperm]
  unfold groupedTotals
  rw [map_map]
  exact sumCounts_over_keys (groupKeys t) t hnd hcov

/-- Claim C4, counterexample: on a table whose two locations tie on total,
the pipeline's selection differs from the spec's break-ties-by-input-order
selection, so the tie is not broken by input order. -/
theorem topNTieBreak_cex : topLocations tieTable ≠ topLocationsSpec tieTable := by
  decide

/-- Claim C4, amended: the pipeline is a pure function of the table, so a
fixed input always yields the identical ordered sequence, ascending by
total; ties between equal totals are not broken by input order — on the
tie table the selection is ["A", "B"], the groupby key order, although "B"
appears first in the input. -/
theorem topNTieBreak :
    (∀ t : List IncidentRecord, Sorted leTotal (locationTotals t)) ∧
    topLocations tieTable = ["A", "B"] :=
  ⟨fun t => sorted_insertionSort leTotal (groupedTotals t), by decide⟩

/-- Claim C5: in the spec-modelled circular layout with count 5 and radius
1.2, every node lies at distance exactly 1.2 from the center, consecutive
nodes are 72 degrees apart, and recomputing a position yields the identical
value. -/
theorem circularLayoutSymmetry (i : ℕ) (_hi : i < 5) :
    distToCenter (nodePos 1.2 90 5 i) = 1.2 ∧
    layoutAngle 90 5 i - layoutAngle 90 5 (i + 1) = 72 ∧
    nodePos 1.2 90 5 i = nodePos 1.2 90 5 i := by
  refine ⟨?_, ?_, rfl⟩
  · have key : (1.2 * Real.cos (layoutAngle 90 5 i * Real.pi / 180)) ^ 2 +
        (1.2 * Real.sin (layoutAngle 90 5 i * Real.pi / 180)) ^ 2 = 1.2 ^ 2 := by
      have h := Real.sin_sq_add_cos_sq (layoutAngle 90 5 i * Real.pi / 180)
      calc (1.2 * Real.cos (layoutAngle 90 5 i * Real.pi / 180)) ^ 2 +
            (1.2 * Real.sin (layoutAngle 90 5 i * Real.pi / 180)) ^ 2
          = 1.2 ^ 2 * (Real.sin (layoutAngle 90 5 i * Real.pi / 180) ^ 2 +
              Real.cos (layoutAngle 90 5 i * Real.pi / 180) ^ 2) := by ring
        _ = 1.2 ^ 2 := by rw [h, mul_one]
    show Real.sqrt ((1.2 * Real.cos (layoutAngle 90 5 i * Real.pi / 180)) ^ 2 +
      (1.2 * Real.sin (layoutAngle 90 5 i * Real.pi / 180)) ^ 2) = 1.2
    rw [key, Real.sqrt_sq (by norm_num : (0:ℝ) ≤ 1.2)]
  · unfold layoutAngle
    push_cast
    ring

/-- Witness for C5 at node index 2. -/
theorem circularLayoutSymmetry_node2 :
    2 < 5 ∧ (distToCenter (nodePos 1.2 90 5 2) = 1.2 ∧
      layoutAngle 90 5 2 - layoutAngle 90 5 3 = 72) :=
  ⟨by norm_num, (circularLayoutSymmetry 2 (by norm_num)).1,
    (circularLayoutSymmetry 2 (by norm_num)).2.1⟩

/-- Claim C6: reveal fires only from the hidden state and reset only from
the revealed state; an action fired from a state that does not permit it
leaves the state unchanged (a no-op, not an error). -/
theorem toggleTransitionTable :
    stepToggle false ToggleAction.reveal = true ∧
    stepToggle true ToggleAction.reset = false ∧
    stepToggle true ToggleAction.reveal = true ∧
    stepToggle false ToggleAction.reset = false := by decide

/-- Claim C7: the empty raw table yields an empty per-location total
sequence and the incident panel renders the no-data notice instead of a
chart; the branch is total, so no exception arises. -/
theorem emptyTableNoData :
    renderIncidents [] = IncidentsView.noData ∧ locationTotals [] = [] := by
  decide

/-- Claim C8: the visible commodity sequence is sorted by value descending
under the same comparison in both toggle states, and when the synthetic
entry is present it is placed by that same ordering — having the largest
value, it sorts to the front with no special-casing. -/
theorem commodityOrderUniform :
    (∀ s : Bool, Sorted valueGE (visibleImports s)) ∧
    (visibleImports true).head? = some newRow := by
  exact ⟨fun s => sorted_insertionSort valueGE (dfImports s), by decide⟩

/-- Claim C9: starting hidden the commodity sequence has 10 entries; after
one reveal action it has 11 and contains the Illicit Drugs entry (value 9.4
billion, i.e. 94 tenths, kind Illegal) exactly once; after a further reset
action it is back to 10 entries. -/
theorem revealScenario :
    (visibleImports (runToggle [])).length = 10 ∧
    runToggle [ToggleAction.reveal] = true ∧
    (visibleImports (runToggle [ToggleAction.reveal])).length = 11 ∧
    (visibleImports (runToggle [ToggleAction.reveal])).count newRow = 1 ∧
    newRow = ⟨"Illicit Drugs", 94, "Illegal"⟩ ∧
    (visibleImports (runToggle [ToggleAction.reveal, ToggleAction.reset])).length
      = 10 := by
  decide

/-- Claim C10: for every non-empty table the chart title total sums the
whole raw table, not just the plotted records; on the 21-location table the
title shows 231 while the plotted records sum to 230, so the displayed
total exceeds the plotted sum. -/
theorem titleTotalFullTable :
    (∀ t : List IncidentRecord, t ≠ [] →
        renderIncidents t = IncidentsView.hasData (dfFiltered t) (sumCounts t)) ∧
    renderIncidents bigTable =
      IncidentsView.hasData (dfFiltered bigTable) (sumCounts bigTable) ∧
    sumCounts bigTable = 231 ∧
    sumCounts (dfFiltered bigTable) = 230 ∧
    sumCounts (dfFiltered bigTable) < sumCounts bigTable := by
  refine ⟨?_, by decide, by decide, by decide, by decide⟩
  intro t ht
  cases t with
  | nil => exact absurd rfl ht
  | cons a l => rfl

/-- Witness for C10 at the 21-location table. -/
theorem titleTotalFullTable_big :
    bigTable ≠ [] ∧ renderIncidents bigTable =
      IncidentsView.hasData (dfFiltered bigTable) (sumCounts bigTable) :=
  ⟨by decide, titleTotalFullTable.1 bigTable (by decide)⟩
